import Mathlib

/-!
Verification of the client-side synchronization layer of the live multi-party
conversation viewer (frontend/src/App.tsx and frontend/src/ws.ts).

The embedding translates the reveal engine of App.tsx - the closures over
turnQueueRef, pendingRoundRef, displayTimerRef and the React state cells
liveTurns, showReactions, feed, state, activeTurnIdx, appPhase - into a pure
state-transition system, and the WebSocket client of ws.ts into a transition
system with an explicit output list (status callbacks, event callbacks,
scheduled reconnect delays).

The runtime is single-threaded and event-loop driven, so each JS callback
invocation becomes one atomic transition.  A host timer is represented by the
value stored in the corresponding ref: clearTimeout is modelled by setting the
ref to none, and a timer-expiry transition executes the currently stored
callback (firing with no stored callback is a no-op, matching the fact that a
cleared timeout never runs).  JS numbers that the claims never compute with
are modelled as rationals; presentation-only React state (draft roster,
dataset panel, text inputs, auto-run flag) is omitted because no transition
relevant to the claims reads it.
-/

namespace Arena

/-- Role of an agent (types.ts, Role). -/
inductive Role
  | user
  | mediator
deriving DecidableEq, Repr

/-- Agent record (types.ts, Agent).  The numeric energy field is modelled as a
rational; mbti_type is optional as in the source. -/
structure Agent where
  id : String
  name : String
  persona_text : String
  quirks : List String
  stance : String
  energy : ℚ
  role : Role
  mbti_type : Option String
deriving DecidableEq, Repr

/-- One utterance (types.ts, PublicTurn).  The optional visual payload is an
opaque value forwarded untouched to presentation; it is modelled as an opaque
string. -/
structure PublicTurn where
  speaker_id : String
  message : String
  visual : Option String
deriving DecidableEq, Repr

/-- Reaction attached to a finalized round (types.ts, Reaction). -/
structure Reaction where
  agent_id : String
  emoji : String
  micro_comment : String
deriving DecidableEq, Repr

/-- Round metrics (types.ts, Metrics); scores are JS numbers, modelled as
rationals since no claim computes with them. -/
structure Metrics where
  consensus_score : ℚ
  polarization_score : ℚ
  civility_score : ℚ
  detected_coalitions : List String
deriving DecidableEq, Repr

/-- Result of one simulation round (types.ts, RoundResult). -/
structure RoundResult where
  round_number : Int
  speaker_ids : List String
  turns : List PublicTurn
  reactions : List Reaction
  emergent_pattern : String
  metrics : Metrics
deriving DecidableEq, Repr

/-- Full application snapshot (types.ts, State).  The world_state JSON object
is modelled as an association list of opaque values. -/
structure State where
  topic : String
  round_number : Int
  agents : List Agent
  public_history : List PublicTurn
  reactions : List Reaction
  world_state : List (String × String)
  dataset_summary : Option String
deriving DecidableEq, Repr

/-- A decoded inbound transport message.  ws.ts parses JSON and casts the
result to WsEvent without validation, so every field the handlers may read is
modelled as optional: the type tag itself may be absent or arbitrary, and the
payload fields may be missing even when the tag suggests otherwise. -/
structure DecodedEvent where
  type : Option String
  state_snapshot : Option State
  turn : Option PublicTurn
  round_number : Option Int
  round_result : Option RoundResult
  metrics : Option Metrics
deriving DecidableEq, Repr

/-- Application phase (types.ts, AppPhase). -/
inductive AppPhase
  | setup
  | arena
deriving DecidableEq, Repr

/-- The callback held by displayTimerRef (App.tsx lines 92-95 and 99-108).
The dwell callback re-enters processQueue; the finalization callback captured
the pending round event ev at scheduling time. -/
inductive TimerCb
  | dwell
  | finalize (ev : DecodedEvent)
deriving DecidableEq, Repr

/-- The reveal-engine state of App.tsx: the three refs of the turn queue
machinery plus the React state cells that the claims are about.  stateValue
is the cell named state (the ApplicationSnapshot), feed is the round history,
liveTurns is the LiveDisplayState. -/
structure AppState where
  liveTurns : List PublicTurn
  turnQueue : List PublicTurn
  pendingRound : Option DecodedEvent
  displayTimer : Option TimerCb
  showReactions : Bool
  feed : List DecodedEvent
  stateValue : Option State
  activeTurnIdx : Int
  appPhase : AppPhase
deriving DecidableEq, Repr

/-- Initial component state (App.tsx lines 31-82): empty queue and display,
no pending round, no timer, activeTurnIdx -1, setup phase. -/
def initApp : AppState :=
  { liveTurns := []
    turnQueue := []
    pendingRound := none
    displayTimer := none
    showReactions := false
    feed := []
    stateValue := none
    activeTurnIdx := -1
    appPhase := AppPhase.setup }

/-- processQueue (App.tsx lines 85-110).  Returns immediately when a timer is
active; otherwise pops the front turn, appends it to liveTurns and starts the
dwell timer; with an empty queue and a pending round it starts the
finalization timer, capturing the pending round event. -/
def processQueue (s : AppState) : AppState :=
  match s.displayTimer with
  | some _ => s
  | none =>
    match s.turnQueue with
    | next :: rest =>
        { s with
          showReactions := false
          liveTurns := s.liveTurns ++ [next]
          turnQueue := rest
          displayTimer := some TimerCb.dwell }
    | [] =>
      match s.pendingRound with
      | some ev => { s with displayTimer := some (TimerCb.finalize ev) }
      | none => s

/-- Expiry of the display timer.  The dwell callback (App.tsx lines 92-95)
clears the timer ref and re-enters processQueue.  The finalization callback
(lines 99-108) clears the timer and the pending round, collapses liveTurns to
the human turns, then sets activeTurnIdx, shows the reactions, appends the
round to the feed and installs the attached snapshot.  When the captured
event has no round_result, the member access ev.round_result.turns throws
inside the callback, so the updates after the liveTurns collapse do not
happen; the model keeps exactly the updates that precede the throwing
access. -/
def fireTimer (s : AppState) : AppState :=
  match s.displayTimer with
  | none => s
  | some TimerCb.dwell => processQueue { s with displayTimer := none }
  | some (TimerCb.finalize ev) =>
    let s1 : AppState :=
      { s with
        displayTimer := none
        pendingRound := none
        liveTurns := s.liveTurns.filter (fun t => t.speaker_id == "human") }
    match ev.round_result with
    | none => s1
    | some rr =>
      { s1 with
        activeTurnIdx := (rr.turns.length : Int) - 1
        showReactions := true
        feed := s1.feed ++ [ev]
        stateValue := ev.state_snapshot }

/-- The onEvent callback handed to createWsClient (App.tsx lines 202-223).
A state-tagged event installs its snapshot immediately.  A turn-tagged event
is dropped when its speaker is the human sentinel; otherwise the phase
auto-transition for students runs, reactions are hidden, the turn is enqueued
and processQueue is invoked.  Every other event - the tag is never checked
against "round" - is stored as the pending round and processQueue is
invoked.  A turn-tagged event without a turn payload throws on the member
access before any mutation; the surrounding try of ws.ts swallows the throw,
so the state is unchanged. -/
def onEvent (isAdmin : Bool) (e : DecodedEvent) (s : AppState) : AppState :=
  if e.type = some "state" then
    { s with stateValue := e.state_snapshot }
  else if e.type = some "turn" then
    match e.turn with
    | none => s
    | some t =>
      if t.speaker_id = "human" then s
      else
        processQueue
          { s with
            appPhase :=
              if isAdmin = false ∧ s.appPhase = AppPhase.setup then AppPhase.arena
              else s.appPhase
            showReactions := false
            turnQueue := s.turnQueue ++ [t] }
  else
    processQueue { s with pendingRound := some e }

/-- clearTurnQueue (App.tsx lines 112-119): empties the queue, drops the
pending round and cancels the display timer. -/
def clearTurnQueue (s : AppState) : AppState :=
  { s with turnQueue := [], pendingRound := none, displayTimer := none }

/-- The local state updates of onReset after the reset request succeeded
(App.tsx lines 471-490): install the returned snapshot, clear the feed, reset
the indices and flags, empty liveTurns, clear the turn queue machinery and
return to the setup phase. -/
def onReset (resetState : State) (s : AppState) : AppState :=
  clearTurnQueue
    { s with
      stateValue := some resetState
      feed := []
      activeTurnIdx := -1
      showReactions := false
      liveTurns := []
      appPhase := AppPhase.setup }

/-- JS String.prototype.trim: strip leading and trailing whitespace, modelled
structurally on the character list. -/
def jsTrim (s : String) : String :=
  String.mk (((s.data.dropWhile Char.isWhitespace).reverse.dropWhile Char.isWhitespace).reverse)

/-- The local state update of onIntervene after the intervene request was
issued (App.tsx lines 492-509): with a non-blank input, a human turn carrying
the trimmed message is appended to liveTurns directly, without going through
the queue or waiting for any transport event.  The liveTurns append uses the
functional updater in the source, so it applies to the then-current value;
the single-threaded model makes it one atomic step. -/
def onIntervene (msg : String) (s : AppState) : AppState :=
  if jsTrim msg = "" then s
  else
    { s with
      liveTurns := s.liveTurns ++ [PublicTurn.mk "human" (jsTrim msg) none] }

/-- The events that drive the reveal engine: delivery of a decoded transport
message, expiry of the display timer, a local intervention submission, and a
completed reset. -/
inductive AppEv
  | recv (e : DecodedEvent)
  | fire
  | intervene (msg : String)
  | resetDone (st : State)
deriving DecidableEq, Repr

/-- One step of the reveal engine. -/
def step (isAdmin : Bool) (s : AppState) : AppEv → AppState
  | AppEv.recv e => onEvent isAdmin e s
  | AppEv.fire => fireTimer s
  | AppEv.intervene msg => onIntervene msg s
  | AppEv.resetDone st => onReset st s

/-- Run of the reveal engine over a list of events. -/
def run (isAdmin : Bool) (s : AppState) (evs : List AppEv) : AppState :=
  List.foldl (step isAdmin) s evs

/-- The turn delivered by an event, when the event is the delivery of a
turn-tagged transport message carrying a turn payload. -/
def recvTurnOf : AppEv → Option PublicTurn
  | AppEv.recv e => if e.type = some "turn" then e.turn else none
  | _ => none

/-- A turn-tagged transport event carrying the given turn. -/
def mkTurnEvent (t : PublicTurn) (rn : Int) : DecodedEvent :=
  { type := some "turn"
    state_snapshot := none
    turn := some t
    round_number := some rn
    round_result := none
    metrics := none }

/-- Connection status reported by the transport client (ws.ts,
ConnectionStatus). -/
inductive ConnStatus
  | connecting
  | connected
  | disconnected
deriving DecidableEq, Repr

/-- Socket readyState abstraction: CONNECTING, OPEN, or CLOSING/CLOSED. -/
inductive SockSt
  | connecting
  | open_
  | closed
deriving DecidableEq, Repr

/-- Observable actions of the transport client: a status callback, an event
callback, and the scheduling of a reconnect timer with its delay.  The delay
handed to window.setTimeout is coerced by the host to a whole number of
milliseconds (WebIDL long, truncating), so the output carries an integer. -/
inductive WsOut
  | statusOut (c : ConnStatus)
  | eventOut (e : DecodedEvent)
  | scheduleOut (delayMs : Int)
deriving DecidableEq, Repr

/-- Closure state of createWsClient (ws.ts lines 7-10): the active flag, the
current backoff interval in milliseconds (a JS number; the products of 1000
by powers of 3/2 are exact in binary floating point, so rational arithmetic
models it exactly), whether a reconnect timer is pending, and the socket
state (none before the first connect call). -/
structure WsClient where
  active : Bool
  reconnectMs : ℚ
  timerPending : Bool
  sock : Option SockSt
deriving DecidableEq, Repr

/-- External events hitting the transport client: socket open, inbound
message (carrying the JSON.parse result, none when parsing threw), socket
error, socket close, expiry of the reconnect timer, and invocation of the
teardown closure. -/
inductive WsEv
  | open_
  | message (parsed : Option DecodedEvent)
  | error
  | close
  | timerFire
  | teardown
deriving DecidableEq, Repr

/-- The whole-millisecond delay the host timer uses for a scheduled timeout:
window.setTimeout coerces its timeout argument to an integer (truncation
toward zero; all backoff values are positive, so this is the floor). -/
def delayMsOf (q : ℚ) : Int := Rat.floor q

/-- The connect closure (ws.ts lines 12-43): bail out when torn down,
otherwise report connecting and open a fresh socket. -/
def connectStep (c : WsClient) : WsClient × List WsOut :=
  if c.active then
    ({ c with sock := some SockSt.connecting }, [WsOut.statusOut ConnStatus.connecting])
  else (c, [])

/-- One transition of the transport client.
open (lines 17-20): reset the backoff to 1000 and report connected.
message (lines 22-29): forward the decoded event; a parse failure is dropped
with no callback and no state change.
error (lines 31-33): report disconnected.
close (lines 35-42): report disconnected; when not torn down, schedule a
reconnect after the current backoff interval (the growth by 1.5 capped at
10000 happens inside the timer callback, before reconnecting).
timerFire: the scheduled callback grows the interval and reconnects.
teardown (lines 47-55): mark inactive, cancel a pending reconnect timer and
close the socket when it is open or still connecting. -/
def wsStep (c : WsClient) : WsEv → WsClient × List WsOut
  | WsEv.open_ =>
      ({ c with reconnectMs := 1000, sock := some SockSt.open_ },
       [WsOut.statusOut ConnStatus.connected])
  | WsEv.message parsed =>
      match parsed with
      | some e => (c, [WsOut.eventOut e])
      | none => (c, [])
  | WsEv.error => (c, [WsOut.statusOut ConnStatus.disconnected])
  | WsEv.close =>
      if c.active then
        ({ c with sock := some SockSt.closed, timerPending := true },
         [WsOut.statusOut ConnStatus.disconnected,
          WsOut.scheduleOut (delayMsOf c.reconnectMs)])
      else
        ({ c with sock := some SockSt.closed }, [WsOut.statusOut ConnStatus.disconnected])
  | WsEv.timerFire =>
      if c.timerPending then
        connectStep
          { c with
            timerPending := false
            reconnectMs := min 10000 (c.reconnectMs * (3 / 2)) }
      else (c, [])
  | WsEv.teardown =>
      ({ c with
          active := false
          timerPending := false
          sock :=
            if c.sock = some SockSt.open_ ∨ c.sock = some SockSt.connecting then
              some SockSt.closed
            else c.sock }, [])

/-- Run of the transport client over a list of events, accumulating
outputs. -/
def wsRun : WsClient → List WsEv → WsClient × List WsOut
  | c, [] => (c, [])
  | c, e :: es =>
      let r1 := wsStep c e
      let r2 := wsRun r1.1 es
      (r2.1, r1.2 ++ r2.2)

/-- The reconnect delays scheduled within an output list. -/
def schedulesOf (outs : List WsOut) : List Int :=
  outs.filterMap fun o =>
    match o with
    | WsOut.scheduleOut d => some d
    | _ => none

/-- Construction of the client (ws.ts lines 6-15 and 45): fresh closure state
followed by the immediate connect call. -/
def createWsClient : WsClient × List WsOut :=
  connectStep { active := true, reconnectMs := 1000, timerPending := false, sock := none }

/-- Client state right after the initial connect succeeded. -/
def openedClient : WsClient := (wsStep createWsClient.1 WsEv.open_).1

/-- One growth step of the backoff interval (ws.ts line 39). -/
def growMs (q : ℚ) : ℚ := min 10000 (q * (3 / 2))

/-- Iterated backoff growth. -/
def growIter (q : ℚ) : ℕ → ℚ
  | 0 => q
  | k + 1 => growMs (growIter q k)

/-- Consecutive connection failures with no intervening successful open: each
cycle is a close followed by the expiry of the scheduled reconnect timer. -/
def failCycles : ℕ → List WsEv
  | 0 => []
  | n + 1 => WsEv.close :: WsEv.timerFire :: failCycles n

/-- Modelled from the claim wording: the delay the spec asserts for the k-th
consecutive reconnect attempt, to be compared with the delays the code
schedules. -/
def claimedBackoffDelay (k : ℕ) : Int :=
  List.getD [1000, 1500, 2250, 3375, 5062, 7593] k 10000

/-- Events that can still reach a torn-down client: the socket was closed or
is failing, so error, close and late message events may arrive and a cleared
timer slot may be probed, but a successful open cannot occur any more (close
during CONNECTING fails the connection), and invoking the teardown closure
again is allowed. -/
def postTeardownEv : WsEv → Bool
  | WsEv.open_ => false
  | _ => true

/-- Sample metrics value for concrete executions. -/
def sampleMetrics : Metrics := ⟨0, 0, 0, []⟩

/-- Sample application snapshot for concrete executions. -/
def sampleSnap : State := ⟨"energy policy", 5, [], [], [], [], none⟩

/-- Sample non-human turn. -/
def tA : PublicTurn := ⟨"agent1", "first point", none⟩

/-- Sample non-human turn. -/
def tB : PublicTurn := ⟨"agent2", "second point", none⟩

/-- Sample reaction. -/
def sampleReaction : Reaction := ⟨"agent1", "+1", "agree"⟩

/-- A round-tagged event finalizing a round whose turns are tA and tB. -/
def roundEvAB : DecodedEvent :=
  { type := some "round"
    state_snapshot := some sampleSnap
    turn := none
    round_number := none
    round_result := some ⟨5, ["agent1", "agent2"], [tA, tB], [sampleReaction], "", sampleMetrics⟩
    metrics := some sampleMetrics }

/-- A state-tagged event carrying the sample snapshot. -/
def stateEvent : DecodedEvent :=
  { type := some "state"
    state_snapshot := some sampleSnap
    turn := none
    round_number := none
    round_result := none
    metrics := none }

/-- A decoded event with no type tag at all. -/
def unknownTagEvent : DecodedEvent :=
  { type := none
    state_snapshot := none
    turn := none
    round_number := none
    round_result := none
    metrics := none }

/-- A transport echo of a human turn. -/
def humanEchoEvent : DecodedEvent := mkTurnEvent ⟨"human", "hello", none⟩ 1

/-- Interleaving in which the round event outruns the turn events: the round
arrives first, its finalization dwell is scheduled on the empty queue, both
turns arrive during that dwell, and the dwell expires. -/
def c1Trace : List AppEv :=
  [AppEv.recv roundEvAB, AppEv.recv (mkTurnEvent tA 5), AppEv.recv (mkTurnEvent tB 5), AppEv.fire]

/-- Final state of the race trace. -/
def c1Final : AppState := run false initApp c1Trace

/-- A well-paced delivery of tA and tB: each reveal dwell expires before the
next event. -/
def c2Events : List AppEv :=
  [AppEv.recv (mkTurnEvent tA 1), AppEv.fire, AppEv.recv (mkTurnEvent tB 1), AppEv.fire]

end Arena

namespace Arena

/-! Helper lemmas about the scheduler transitions. -/

/-- processQueue never touches the feed, the snapshot, the pending round or
the active turn index. -/
lemma processQueue_same (s : AppState) :
    (processQueue s).feed = s.feed ∧ (processQueue s).stateValue = s.stateValue ∧
    (processQueue s).pendingRound = s.pendingRound ∧
    (processQueue s).activeTurnIdx = s.activeTurnIdx := by
  obtain ⟨lt, tq, pr, dt, sr, fd, sv, ai, ph⟩ := s
  cases dt <;> cases tq <;> cases pr <;> simp [processQueue]

/-- processQueue can only lower the reactions-visibility flag. -/
lemma processQueue_showReactions (s : AppState) :
    (processQueue s).showReactions = true → s.showReactions = true := by
  obtain ⟨lt, tq, pr, dt, sr, fd, sv, ai, ph⟩ := s
  cases dt <;> cases tq <;> cases pr <;> simp [processQueue]

/-- processQueue only ever appends to liveTurns. -/
lemma processQueue_liveTurns (s : AppState) :
    ∃ tail, (processQueue s).liveTurns = s.liveTurns ++ tail := by
  obtain ⟨lt, tq, pr, dt, sr, fd, sv, ai, ph⟩ := s
  cases dt <;> cases tq <;> cases pr <;> simp [processQueue]

/-- processQueue moves turns from the queue to the display without loss or
reordering. -/
lemma processQueue_concat (s : AppState) :
    (processQueue s).liveTurns ++ (processQueue s).turnQueue = s.liveTurns ++ s.turnQueue := by
  obtain ⟨lt, tq, pr, dt, sr, fd, sv, ai, ph⟩ := s
  cases dt <;> cases tq <;> cases pr <;> simp [processQueue]

/-- With no pending round and no finalization timer already active,
processQueue never installs a finalization timer. -/
lemma processQueue_noFinalize (s : AppState) (hp : s.pendingRound = none)
    (ht : ∀ ev, s.displayTimer ≠ some (TimerCb.finalize ev)) :
    ∀ ev, (processQueue s).displayTimer ≠ some (TimerCb.finalize ev) := by
  obtain ⟨lt, tq, pr, dt, sr, fd, sv, ai, ph⟩ := s
  simp only at hp
  subst hp
  cases dt with
  | none => cases tq <;> simp [processQueue]
  | some cb => simpa [processQueue] using ht

/-- A timer expiry in a state with no pending round and no finalization timer
keeps both properties and moves turns from queue to display without loss or
reordering. -/
lemma fireTimer_inv (s : AppState) (hp : s.pendingRound = none)
    (ht : ∀ ev, s.displayTimer ≠ some (TimerCb.finalize ev)) :
    (fireTimer s).pendingRound = none ∧
    (∀ ev, (fireTimer s).displayTimer ≠ some (TimerCb.finalize ev)) ∧
    (fireTimer s).liveTurns ++ (fireTimer s).turnQueue = s.liveTurns ++ s.turnQueue := by
  cases hdt : s.displayTimer with
  | none =>
    unfold fireTimer
    rw [hdt]
    exact ⟨hp, by rw [hdt]; simp, rfl⟩
  | some cb =>
    cases cb with
    | dwell =>
      unfold fireTimer
      rw [hdt]
      refine ⟨?_, ?_, ?_⟩
      · rw [(processQueue_same _).2.2.1]
        exact hp
      · exact processQueue_noFinalize _ hp (by simp)
      · exact processQueue_concat _
    | finalize ev => exact absurd hdt (ht ev)

/-- Reduction of onEvent on a state-tagged event (App.tsx lines 203-206). -/
lemma onEvent_state_eq (isAdmin : Bool) (e : DecodedEvent) (s : AppState)
    (h1 : e.type = some "state") :
    onEvent isAdmin e s = { s with stateValue := e.state_snapshot } := by
  unfold onEvent
  rw [if_pos h1]

/-- Reduction of onEvent on a turn-tagged event carrying a non-human turn
(App.tsx lines 207-218). -/
lemma onEvent_turn_eq (isAdmin : Bool) (e : DecodedEvent) (t : PublicTurn) (s : AppState)
    (h1 : e.type = some "turn") (h2 : e.turn = some t) (h3 : ¬ t.speaker_id = "human") :
    onEvent isAdmin e s =
      processQueue
        { s with
          appPhase :=
            if isAdmin = false ∧ s.appPhase = AppPhase.setup then AppPhase.arena
            else s.appPhase
          showReactions := false
          turnQueue := s.turnQueue ++ [t] } := by
  unfold onEvent
  rw [h1, h2]
  simp [h3]

/-- Reduction of onEvent on an event whose tag is neither state nor turn
(App.tsx lines 220-222). -/
lemma onEvent_other_eq (isAdmin : Bool) (e : DecodedEvent) (s : AppState)
    (h1 : ¬ e.type = some "state") (h2 : ¬ e.type = some "turn") :
    onEvent isAdmin e s = processQueue { s with pendingRound := some e } := by
  unfold onEvent
  rw [if_neg h1, if_neg h2]

/-- Reduction of onEvent on a turn-tagged event carrying a human turn
(App.tsx lines 208-209): the event is dropped. -/
lemma onEvent_human_eq (isAdmin : Bool) (e : DecodedEvent) (t : PublicTurn) (s : AppState)
    (h1 : e.type = some "turn") (h2 : e.turn = some t) (h3 : t.speaker_id = "human") :
    onEvent isAdmin e s = s := by
  unfold onEvent
  rw [h1, h2]
  simp [h3]

/-- Reduction of onEvent on a turn-tagged event without a turn payload: the
member access throws, the transport layer swallows the throw, nothing
changed. -/
lemma onEvent_noPayload_eq (isAdmin : Bool) (e : DecodedEvent) (s : AppState)
    (h1 : ¬ e.type = some "state") (h2 : e.type = some "turn") (h3 : e.turn = none) :
    onEvent isAdmin e s = s := by
  unfold onEvent
  rw [if_neg h1, if_pos h2, h3]

/-- Exhaustive case analysis of the ingestor: every delivery either installs
a snapshot, is dropped, enqueues one non-human turn and runs processQueue, or
stores the pending round and runs processQueue. -/
lemma onEvent_cases (isAdmin : Bool) (e : DecodedEvent) (s : AppState) :
    onEvent isAdmin e s = { s with stateValue := e.state_snapshot } ∨
    onEvent isAdmin e s = s ∨
    (∃ t, e.turn = some t ∧
      onEvent isAdmin e s =
        processQueue
          { s with
            appPhase :=
              if isAdmin = false ∧ s.appPhase = AppPhase.setup then AppPhase.arena
              else s.appPhase
            showReactions := false
            turnQueue := s.turnQueue ++ [t] }) ∨
    onEvent isAdmin e s = processQueue { s with pendingRound := some e } := by
  by_cases h1 : e.type = some "state"
  · exact Or.inl (onEvent_state_eq isAdmin e s h1)
  · by_cases h2 : e.type = some "turn"
    · cases ht : e.turn with
      | none => exact Or.inr (Or.inl (onEvent_noPayload_eq isAdmin e s h1 h2 ht))
      | some t =>
        by_cases h3 : t.speaker_id = "human"
        · exact Or.inr (Or.inl (onEvent_human_eq isAdmin e t s h2 ht h3))
        · exact Or.inr (Or.inr (Or.inl ⟨t, rfl, onEvent_turn_eq isAdmin e t s h2 ht h3⟩))
    · exact Or.inr (Or.inr (Or.inr (onEvent_other_eq isAdmin e s h1 h2)))

/-! Claim theorems. -/

/-- Counterexample to C1 as stated: an interleaving in which the round event
arrives before the Turn events of its own round.  The finalization dwell is
scheduled on the (still empty) queue, both turns arrive during that dwell,
and when the dwell expires the round is finalized - the reactions become
visible and the round enters the history - while neither turn of the round
has ever been revealed, let alone completed a reveal dwell: both are still
sitting in the queue.  So it is not the case that every turn of the round
completes its reveal dwell strictly before the reactions become visible,
regardless of network arrival order. -/
theorem c1_counterexample :
    c1Final.showReactions = true ∧ c1Final.feed = [roundEvAB] ∧
    c1Final.liveTurns = [] ∧ c1Final.turnQueue = [tA, tB] := by
  decide

/-- C1 amended: upon arrival of a round-finalization event no finalization
effect occurs - the history and the snapshot are unchanged, the
reactions-visibility flag is never raised by any arrival, and arrival only
ever appends to LiveDisplayState (these hold for every delivery).  A
finalization dwell is scheduled only when the reveal queue is empty and the
event was the pending round; nothing is revealed or scheduled while a dwell
is active; and the history grows only when a finalization dwell expires.
Hence every turn of the round delivered before its finalization dwell is
scheduled completes its reveal dwell strictly before the reactions become
visible - but a turn arriving after that moment is finalized over, as the
counterexample shows, so the guarantee does not hold for arbitrary network
arrival order. -/
theorem c1_theorem :
    (∀ (isAdmin : Bool) (e : DecodedEvent) (s : AppState),
      (onEvent isAdmin e s).feed = s.feed) ∧
    (∀ (isAdmin : Bool) (e : DecodedEvent) (s : AppState),
      (onEvent isAdmin e s).stateValue = s.stateValue ∨ e.type = some "state") ∧
    (∀ (isAdmin : Bool) (e : DecodedEvent) (s : AppState),
      (onEvent isAdmin e s).showReactions = true → s.showReactions = true) ∧
    (∀ (isAdmin : Bool) (e : DecodedEvent) (s : AppState),
      ∃ tail, (onEvent isAdmin e s).liveTurns = s.liveTurns ++ tail) ∧
    (∀ (s : AppState) (ev : DecodedEvent),
      s.displayTimer = none →
      (processQueue s).displayTimer = some (TimerCb.finalize ev) →
      s.turnQueue = [] ∧ s.pendingRound = some ev) ∧
    (∀ s : AppState, s.displayTimer.isSome → processQueue s = s) ∧
    (∀ s : AppState, ¬ (fireTimer s).feed = s.feed →
      ∃ ev, s.displayTimer = some (TimerCb.finalize ev) ∧
        (fireTimer s).feed = s.feed ++ [ev]) := by
  refine ⟨?_, ?_, ?_, ?_, ?_, ?_, ?_⟩
  · intro isAdmin e s
    by_cases h1 : e.type = some "state"
    · rw [onEvent_state_eq isAdmin e s h1]
    · by_cases h2 : e.type = some "turn"
      · cases ht : e.turn with
        | none => rw [onEvent_noPayload_eq isAdmin e s h1 h2 ht]
        | some t =>
          by_cases h3 : t.speaker_id = "human"
          · rw [onEvent_human_eq isAdmin e t s h2 ht h3]
          · rw [onEvent_turn_eq isAdmin e t s h2 ht h3]
            exact (processQueue_same _).1
      · rw [onEvent_other_eq isAdmin e s h1 h2]
        exact (processQueue_same _).1
  · intro isAdmin e s
    by_cases h1 : e.type = some "state"
    · exact Or.inr h1
    · refine Or.inl ?_
      by_cases h2 : e.type = some "turn"
      · cases ht : e.turn with
        | none => rw [onEvent_noPayload_eq isAdmin e s h1 h2 ht]
        | some t =>
          by_cases h3 : t.speaker_id = "human"
          · rw [onEvent_human_eq isAdmin e t s h2 ht h3]
          · rw [onEvent_turn_eq isAdmin e t s h2 ht h3]
            exact (processQueue_same _).2.1
      · rw [onEvent_other_eq isAdmin e s h1 h2]
        exact (processQueue_same _).2.1
  · intro isAdmin e s
    by_cases h1 : e.type = some "state"
    · rw [onEvent_state_eq isAdmin e s h1]
      exact fun hr => hr
    · by_cases h2 : e.type = some "turn"
      · cases ht : e.turn with
        | none =>
          rw [onEvent_noPayload_eq isAdmin e s h1 h2 ht]
          exact fun hr => hr
        | some t =>
          by_cases h3 : t.speaker_id = "human"
          · rw [onEvent_human_eq isAdmin e t s h2 ht h3]
            exact fun hr => hr
          · rw [onEvent_turn_eq isAdmin e t s h2 ht h3]
            intro hr
            have h4 := processQueue_showReactions _ hr
            simp at h4
      · rw [onEvent_other_eq isAdmin e s h1 h2]
        intro hr
        exact processQueue_showReactions { s with pendingRound := some e } hr
  · intro isAdmin e s
    by_cases h1 : e.type = some "state"
    · rw [onEvent_state_eq isAdmin e s h1]
      exact ⟨[], by simp⟩
    · by_cases h2 : e.type = some "turn"
      · cases ht : e.turn with
        | none =>
          rw [onEvent_noPayload_eq isAdmin e s h1 h2 ht]
          exact ⟨[], by simp⟩
        | some t =>
          by_cases h3 : t.speaker_id = "human"
          · rw [onEvent_human_eq isAdmin e t s h2 ht h3]
            exact ⟨[], by simp⟩
          · rw [onEvent_turn_eq isAdmin e t s h2 ht h3]
            exact processQueue_liveTurns _
      · rw [onEvent_other_eq isAdmin e s h1 h2]
        exact processQueue_liveTurns _
  · intro s ev hd hpq
    obtain ⟨lt, tq, pr, dt, sr, fd, sv, ai, ph⟩ := s
    simp only at hd
    subst hd
    cases tq with
    | cons a l => simp [processQueue] at hpq
    | nil =>
      cases pr with
      | none => simp [processQueue] at hpq
      | some ev2 =>
        simp [processQueue] at hpq
        subst hpq
        exact ⟨rfl, rfl⟩
  · intro s h
    unfold processQueue
    cases hdt : s.displayTimer with
    | some cb => rfl
    | none => rw [hdt] at h; simp at h
  · intro s h
    obtain ⟨lt, tq, pr, dt, sr, fd, sv, ai, ph⟩ := s
    cases dt with
    | none => exact absurd rfl h
    | some cb =>
      cases cb with
      | dwell => exact absurd ((processQueue_same _).1) h
      | finalize ev =>
        refine ⟨ev, rfl, ?_⟩
        cases hrr : ev.round_result with
        | none => exact absurd (by simp [fireTimer, hrr]) h
        | some rr => simp [fireTimer, hrr]

/-- Main run invariant behind C2: along any interleaving of non-human turn
deliveries and timer expiries, starting with no pending round and no
finalization timer, the concatenation of revealed and queued turns equals the
initial turns plus the delivered turns in delivery order, and the no-pending,
no-finalization properties persist. -/
lemma run_inv (isAdmin : Bool) (evs : List AppEv) :
    ∀ s : AppState,
      (∀ e ∈ evs, (recvTurnOf e).isSome ∨ e = AppEv.fire) →
      (∀ e ∈ evs, ∀ t, recvTurnOf e = some t → ¬ t.speaker_id = "human") →
      s.pendingRound = none →
      (∀ ev, s.displayTimer ≠ some (TimerCb.finalize ev)) →
      (run isAdmin s evs).pendingRound = none ∧
      (∀ ev, (run isAdmin s evs).displayTimer ≠ some (TimerCb.finalize ev)) ∧
      (run isAdmin s evs).liveTurns ++ (run isAdmin s evs).turnQueue =
        s.liveTurns ++ s.turnQueue ++ evs.filterMap recvTurnOf := by
  induction evs with
  | nil =>
    intro s _ _ hp ht
    exact ⟨hp, ht, by simp [run]⟩
  | cons e rest ih =>
    intro s hall hnh hp ht
    rcases hall e (List.mem_cons_self e rest) with hsome | hfire
    · obtain ⟨t, hrt⟩ := Option.isSome_iff_exists.mp hsome
      cases e with
      | fire => simp [recvTurnOf] at hrt
      | intervene msg => simp [recvTurnOf] at hrt
      | resetDone st => simp [recvTurnOf] at hrt
      | recv de =>
        have hrt2 : (if de.type = some "turn" then de.turn else none) = some t := hrt
        by_cases htag : de.type = some "turn"
        · rw [if_pos htag] at hrt2
          have h3 : ¬ t.speaker_id = "human" :=
            hnh _ (List.mem_cons_self _ _) t hrt
          have hred := onEvent_turn_eq isAdmin de t s htag hrt2 h3
          have hp2 : (onEvent isAdmin de s).pendingRound = none := by
            rw [hred, (processQueue_same _).2.2.1]
            exact hp
          have ht2 : ∀ ev, (onEvent isAdmin de s).displayTimer ≠ some (TimerCb.finalize ev) := by
            rw [hred]
            exact processQueue_noFinalize _ hp ht
          have hcat : (onEvent isAdmin de s).liveTurns ++ (onEvent isAdmin de s).turnQueue =
              s.liveTurns ++ (s.turnQueue ++ [t]) := by
            rw [hred, processQueue_concat]
          obtain ⟨hp3, ht3, hcat3⟩ := ih (onEvent isAdmin de s)
            (fun e2 he2 => hall e2 (List.mem_cons_of_mem _ he2))
            (fun e2 he2 => hnh e2 (List.mem_cons_of_mem _ he2))
            hp2 ht2
          refine ⟨hp3, ht3, ?_⟩
          calc
            (run isAdmin s (AppEv.recv de :: rest)).liveTurns ++
                (run isAdmin s (AppEv.recv de :: rest)).turnQueue =
                (onEvent isAdmin de s).liveTurns ++ (onEvent isAdmin de s).turnQueue ++
                  rest.filterMap recvTurnOf := hcat3
            _ = s.liveTurns ++ (s.turnQueue ++ [t]) ++ rest.filterMap recvTurnOf := by
                rw [hcat]
            _ = s.liveTurns ++ s.turnQueue ++
                  (AppEv.recv de :: rest).filterMap recvTurnOf := by
                rw [List.filterMap_cons_some hrt]
                simp
        · rw [if_neg htag] at hrt2
          exact absurd hrt2 (by simp)
    · subst hfire
      obtain ⟨hp2, ht2, hcat2⟩ := fireTimer_inv s hp ht
      obtain ⟨hp3, ht3, hcat3⟩ := ih (fireTimer s)
        (fun e2 he2 => hall e2 (List.mem_cons_of_mem _ he2))
        (fun e2 he2 => hnh e2 (List.mem_cons_of_mem _ he2))
        hp2 ht2
      refine ⟨hp3, ht3, ?_⟩
      calc
        (run isAdmin s (AppEv.fire :: rest)).liveTurns ++
            (run isAdmin s (AppEv.fire :: rest)).turnQueue =
            (fireTimer s).liveTurns ++ (fireTimer s).turnQueue ++
              rest.filterMap recvTurnOf := hcat3
        _ = s.liveTurns ++ s.turnQueue ++ rest.filterMap recvTurnOf := by rw [hcat2]
        _ = s.liveTurns ++ s.turnQueue ++ (AppEv.fire :: rest).filterMap recvTurnOf := by
            rw [List.filterMap_cons_none (rfl : recvTurnOf AppEv.fire = none)]

/-- C2: for any ordered sequence of non-human turn deliveries within one
round (no round event in flight: no pending round, no finalization timer),
interleaved arbitrarily with timer expiries, once the queue has fully
drained the turns appended to LiveDisplayState are exactly the delivered
sequence, in delivery order, none skipped, none reordered. -/
theorem c2_theorem (isAdmin : Bool) (s : AppState) (ts : List PublicTurn) (evs : List AppEv)
    (hq : s.turnQueue = []) (hp : s.pendingRound = none)
    (ht : ∀ ev, s.displayTimer ≠ some (TimerCb.finalize ev))
    (hall : ∀ e ∈ evs, (recvTurnOf e).isSome ∨ e = AppEv.fire)
    (hts : evs.filterMap recvTurnOf = ts)
    (hhuman : ∀ t ∈ ts, ¬ t.speaker_id = "human")
    (hdrain : (run isAdmin s evs).turnQueue = []) :
    (run isAdmin s evs).liveTurns = s.liveTurns ++ ts := by
  have hnh : ∀ e ∈ evs, ∀ t, recvTurnOf e = some t → ¬ t.speaker_id = "human" := by
    intro e he t hrt
    exact hhuman t (hts ▸ List.mem_filterMap.mpr ⟨e, he, hrt⟩)
  have h := (run_inv isAdmin evs s hall hnh hp ht).2.2
  rw [hdrain, hq, hts] at h
  simpa using h

/-- Witness for C2: two turns delivered with a dwell expiry after each are
revealed in order and nothing else is displayed. -/
theorem c2_witness : (run false initApp c2Events).liveTurns = [tA, tB] := by
  have h := c2_theorem false initApp [tA, tB] c2Events rfl rfl
    (fun ev hev => by simp [initApp] at hev)
    (by decide) (by decide) (by decide) (by decide)
  simpa [initApp] using h

/-- Witness for C1 amended, instantiating every conjunct at concrete
inputs. -/
theorem c1_witness :
    (onEvent true roundEvAB initApp).feed = [] ∧
    ((onEvent true roundEvAB initApp).stateValue = none ∨ roundEvAB.type = some "state") ∧
    ({ initApp with showReactions := true } : AppState).showReactions = true ∧
    (∃ tail,
      (onEvent true (mkTurnEvent tA 5) initApp).liveTurns = [] ++ tail) ∧
    (({ initApp with pendingRound := some roundEvAB } : AppState).turnQueue = [] ∧
      ({ initApp with pendingRound := some roundEvAB } : AppState).pendingRound =
        some roundEvAB) ∧
    processQueue ({ initApp with displayTimer := some TimerCb.dwell }) =
      { initApp with displayTimer := some TimerCb.dwell } ∧
    (∃ ev,
      ({ initApp with displayTimer := some (TimerCb.finalize roundEvAB) } : AppState).displayTimer =
        some (TimerCb.finalize ev) ∧
      (fireTimer { initApp with displayTimer := some (TimerCb.finalize roundEvAB) }).feed =
        [] ++ [ev]) := by
  refine ⟨?_, ?_, ?_, ?_, ?_, ?_, ?_⟩
  · exact c1_theorem.1 true roundEvAB initApp
  · exact c1_theorem.2.1 true roundEvAB initApp
  · exact
      c1_theorem.2.2.1 true stateEvent { initApp with showReactions := true } (by decide)
  · exact c1_theorem.2.2.2.1 true (mkTurnEvent tA 5) initApp
  · exact
      c1_theorem.2.2.2.2.1 { initApp with pendingRound := some roundEvAB } roundEvAB rfl
        (by decide)
  · exact c1_theorem.2.2.2.2.2.1 { initApp with displayTimer := some TimerCb.dwell } rfl
  · exact
      c1_theorem.2.2.2.2.2.2
        { initApp with displayTimer := some (TimerCb.finalize roundEvAB) } (by decide)

/-- C5: a transport turn event whose speaker is the human sentinel is dropped
by the ingestor with no effect whatsoever on the component state - queue,
LiveDisplayState and everything else are untouched, so a human turn echoed
back over the transport cannot create a duplicate visible entry; human turns
reach LiveDisplayState only through the local intervention path
(onIntervene). -/
theorem c5_theorem (isAdmin : Bool) (e : DecodedEvent) (t : PublicTurn) (s : AppState)
    (h1 : e.type = some "turn") (h2 : e.turn = some t) (h3 : t.speaker_id = "human") :
    onEvent isAdmin e s = s := by
  unfold onEvent
  rw [h1, h2]
  simp [h3]

/-- Witness for C5: the echo of a locally submitted human turn arriving after
the local submission leaves the state - including LiveDisplayState, which
already shows the one local entry - exactly as it was. -/
theorem c5_witness :
    onEvent true humanEchoEvent (onIntervene "hello" initApp) =
      onIntervene "hello" initApp :=
  c5_theorem true humanEchoEvent ⟨"human", "hello", none⟩ (onIntervene "hello" initApp)
    rfl rfl rfl

/-- C6: submitting a non-blank intervention message appends a human turn with
the trimmed message to LiveDisplayState in the submission step itself - the
reveal queue and the display timer are not involved, and no transport event
is consumed, so the visible entry does not wait for the turn to come back
over the event stream. -/
theorem c6_theorem (msg : String) (s : AppState) (h : ¬ jsTrim msg = "") :
    (onIntervene msg s).liveTurns = s.liveTurns ++ [PublicTurn.mk "human" (jsTrim msg) none] ∧
    (onIntervene msg s).turnQueue = s.turnQueue ∧
    (onIntervene msg s).displayTimer = s.displayTimer := by
  unfold onIntervene
  rw [if_neg h]
  exact ⟨rfl, rfl, rfl⟩

/-- Witness for C6 at a concrete submission. -/
theorem c6_witness :
    (onIntervene " hello " initApp).liveTurns = [PublicTurn.mk "human" "hello" none] ∧
    (onIntervene " hello " initApp).turnQueue = [] ∧
    (onIntervene " hello " initApp).displayTimer = none := by
  have h := c6_theorem " hello " initApp (by decide)
  have ht : jsTrim " hello " = "hello" := by decide
  rw [ht] at h
  simpa [initApp] using h

/-- C7: invoking reset in any state of the reveal lifecycle leaves an empty
queue, no pending round, no display timer and an empty LiveDisplayState, and
a subsequently arriving expiry of a previously scheduled dwell or
finalization timer causes no state transition (the timer was cancelled, so
the expiry step is the identity). -/
theorem c7_theorem (s : AppState) (resetSt : State) :
    (onReset resetSt s).turnQueue = [] ∧ (onReset resetSt s).pendingRound = none ∧
    (onReset resetSt s).displayTimer = none ∧ (onReset resetSt s).liveTurns = [] ∧
    fireTimer (onReset resetSt s) = onReset resetSt s :=
  ⟨rfl, rfl, rfl, rfl, rfl⟩

/-- C8: an inbound transport message on which JSON decoding fails is dropped
silently: the client state is unchanged and no callback of any kind - event,
status or reconnect scheduling - is emitted. -/
theorem c8_theorem (c : WsClient) : wsStep c (WsEv.message none) = (c, []) := rfl

/-- C10: every decoded transport event whose type tag is neither state nor
turn - including absent or unrecognized tags - is stored as the pending
round, overwriting any previous one, and with an idle scheduler (no active
timer, empty queue) it immediately drives the scheduling of round
finalization; the ingestor never checks that the tag equals "round". -/
theorem c10_theorem (isAdmin : Bool) (e : DecodedEvent) (s : AppState)
    (h1 : ¬ e.type = some "state") (h2 : ¬ e.type = some "turn") :
    (onEvent isAdmin e s).pendingRound = some e ∧
    (s.displayTimer = none → s.turnQueue = [] →
      (onEvent isAdmin e s).displayTimer = some (TimerCb.finalize e)) := by
  rw [onEvent_other_eq isAdmin e s h1 h2]
  constructor
  · rw [(processQueue_same _).2.2.1]
  · intro hd hq
    unfold processQueue
    simp [hd, hq]

/-- Witness for C10: an event with no type tag, delivered to the idle initial
state, becomes the pending round and schedules finalization. -/
theorem c10_witness :
    (onEvent true unknownTagEvent initApp).pendingRound = some unknownTagEvent ∧
    (onEvent true unknownTagEvent initApp).displayTimer =
      some (TimerCb.finalize unknownTagEvent) := by
  have h := c10_theorem true unknownTagEvent initApp (by decide) (by decide)
  exact ⟨h.1, h.2 rfl rfl⟩

/-- C4: an arriving round-finalization event leaves the ApplicationSnapshot
untouched; the attached snapshot is installed exactly when the finalization
dwell expires (a dwell expiry alone never changes it), whereas a state-tagged
snapshot event replaces the ApplicationSnapshot immediately and
unconditionally. -/
theorem c4_theorem :
    (∀ (isAdmin : Bool) (e : DecodedEvent) (s : AppState),
      ¬ e.type = some "state" → ¬ e.type = some "turn" →
      (onEvent isAdmin e s).stateValue = s.stateValue) ∧
    (∀ (s : AppState) (ev : DecodedEvent) (rr : RoundResult),
      s.displayTimer = some (TimerCb.finalize ev) → ev.round_result = some rr →
      (fireTimer s).stateValue = ev.state_snapshot) ∧
    (∀ s : AppState, s.displayTimer = some TimerCb.dwell →
      (fireTimer s).stateValue = s.stateValue) ∧
    (∀ (isAdmin : Bool) (e : DecodedEvent) (s : AppState),
      e.type = some "state" → (onEvent isAdmin e s).stateValue = e.state_snapshot) := by
  refine ⟨?_, ?_, ?_, ?_⟩
  · intro isAdmin e s h1 h2
    rw [onEvent_other_eq isAdmin e s h1 h2, (processQueue_same _).2.1]
  · intro s ev rr hdt hrr
    unfold fireTimer
    rw [hdt]
    simp [hrr]
  · intro s hdt
    unfold fireTimer
    rw [hdt]
    exact (processQueue_same _).2.1
  · intro isAdmin e s h1
    rw [onEvent_state_eq isAdmin e s h1]

/-- Witness for C4: the round event leaves the snapshot of the idle state
untouched; firing its finalization timer installs the attached snapshot; a
dwell expiry leaves the snapshot alone; the state event installs its snapshot
at once. -/
theorem c4_witness :
    (onEvent true roundEvAB initApp).stateValue = none ∧
    (fireTimer { initApp with displayTimer := some (TimerCb.finalize roundEvAB) }).stateValue =
      some sampleSnap ∧
    (fireTimer { initApp with displayTimer := some TimerCb.dwell }).stateValue = none ∧
    (onEvent true stateEvent initApp).stateValue = some sampleSnap := by
  refine ⟨?_, ?_, ?_, ?_⟩
  · exact c4_theorem.1 true roundEvAB initApp (by decide) (by decide)
  · exact
      c4_theorem.2.1 { initApp with displayTimer := some (TimerCb.finalize roundEvAB) }
        roundEvAB ⟨5, ["agent1", "agent2"], [tA, tB], [sampleReaction], "", sampleMetrics⟩
        rfl rfl
  · exact c4_theorem.2.2.1 { initApp with displayTimer := some TimerCb.dwell } rfl
  · exact c4_theorem.2.2.2 true stateEvent initApp rfl

/-- Shifting the start of the backoff iteration by one growth step. -/
lemma growIter_shift (q : ℚ) (k : ℕ) : growIter (growMs q) k = growMs (growIter q k) := by
  induction k with
  | zero => rfl
  | succ k ih => simp [growIter, ih]

/-- One failure cycle (close followed by the reconnect timer expiry): the
client schedules the current backoff delay, reports disconnected and then
connecting, grows the interval and reconnects. -/
lemma wsRun_cycle_step (c : WsClient) (ha : c.active = true) (htp : c.timerPending = false)
    (evs : List WsEv) :
    wsRun c (WsEv.close :: WsEv.timerFire :: evs) =
      ((wsRun
          { c with
            sock := some SockSt.connecting
            timerPending := false
            reconnectMs := growMs c.reconnectMs } evs).1,
        WsOut.statusOut ConnStatus.disconnected ::
          WsOut.scheduleOut (delayMsOf c.reconnectMs) ::
          WsOut.statusOut ConnStatus.connecting ::
          (wsRun
            { c with
              sock := some SockSt.connecting
              timerPending := false
              reconnectMs := growMs c.reconnectMs } evs).2) := by
  obtain ⟨a, r, tp, sk⟩ := c
  simp only at ha htp
  subst ha; subst htp
  simp [wsRun, wsStep, connectStep, growMs]

/-- State and scheduled delays across n consecutive failure cycles. -/
lemma wsRun_failCycles (n : ℕ) :
    ∀ c : WsClient, c.active = true → c.timerPending = false →
      (wsRun c (failCycles n)).1.active = true ∧
      (wsRun c (failCycles n)).1.timerPending = false ∧
      (wsRun c (failCycles n)).1.reconnectMs = growIter c.reconnectMs n ∧
      schedulesOf (wsRun c (failCycles n)).2 =
        (List.range n).map (fun k => delayMsOf (growIter c.reconnectMs k)) := by
  induction n with
  | zero =>
    intro c ha htp
    exact ⟨ha, htp, rfl, rfl⟩
  | succ n ih =>
    intro c ha htp
    rw [failCycles, wsRun_cycle_step c ha htp]
    obtain ⟨h1, h2, h3, h4⟩ :=
      ih { c with
            sock := some SockSt.connecting
            timerPending := false
            reconnectMs := growMs c.reconnectMs } ha rfl
    refine ⟨h1, h2, ?_, ?_⟩
    · rw [h3]
      show growIter (growMs c.reconnectMs) n = growIter c.reconnectMs (n + 1)
      rw [growIter_shift]
      rfl
    · calc
        schedulesOf
            (WsOut.statusOut ConnStatus.disconnected ::
              WsOut.scheduleOut (delayMsOf c.reconnectMs) ::
              WsOut.statusOut ConnStatus.connecting ::
              (wsRun
                { c with
                  sock := some SockSt.connecting
                  timerPending := false
                  reconnectMs := growMs c.reconnectMs } (failCycles n)).2) =
            delayMsOf c.reconnectMs ::
              schedulesOf
                (wsRun
                  { c with
                    sock := some SockSt.connecting
                    timerPending := false
                    reconnectMs := growMs c.reconnectMs } (failCycles n)).2 := by
          simp [schedulesOf]
        _ = delayMsOf c.reconnectMs ::
              (List.range n).map
                (fun k => delayMsOf (growIter (growMs c.reconnectMs) k)) := by rw [h4]
        _ = (List.range (n + 1)).map (fun k => delayMsOf (growIter c.reconnectMs k)) := by
          rw [List.range_succ_eq_map]
          simp [List.map_map, Function.comp, growIter_shift]
          exact ⟨rfl, fun a _ => rfl⟩

/-- The truncation of setTimeout agrees with the mathematical floor. -/
lemma delayMsOf_eq_floor (q : ℚ) : delayMsOf q = ⌊q⌋ := by
  unfold delayMsOf
  rw [Rat.floor_def' q, Rat.floor_def]

/-- From the seventh consecutive failure on, the backoff interval sits at the
cap. -/
lemma growIter_six (k : ℕ) : growIter 1000 (k + 6) = 10000 := by
  induction k with
  | zero =>
    show growMs (growMs (growMs (growMs (growMs (growMs 1000))))) = 10000
    norm_num [growMs]
  | succ k ih =>
    show growMs (growIter 1000 (k + 6)) = 10000
    rw [ih]
    norm_num [growMs]

/-- The truncated delays produced by the code match the claimed backoff
list. -/
lemma delayMsOf_growIter : ∀ k : ℕ, delayMsOf (growIter 1000 k) = claimedBackoffDelay k
  | 0 => by
    have g : growIter 1000 0 = 1000 := by norm_num [growIter]
    rw [g, delayMsOf_eq_floor, show claimedBackoffDelay 0 = 1000 by decide,
      Int.floor_eq_iff]
    norm_num
  | 1 => by
    have g : growIter 1000 1 = 1500 := by norm_num [growIter, growMs]
    rw [g, delayMsOf_eq_floor, show claimedBackoffDelay 1 = 1500 by decide,
      Int.floor_eq_iff]
    norm_num
  | 2 => by
    have g : growIter 1000 2 = 2250 := by norm_num [growIter, growMs]
    rw [g, delayMsOf_eq_floor, show claimedBackoffDelay 2 = 2250 by decide,
      Int.floor_eq_iff]
    norm_num
  | 3 => by
    have g : growIter 1000 3 = 3375 := by norm_num [growIter, growMs]
    rw [g, delayMsOf_eq_floor, show claimedBackoffDelay 3 = 3375 by decide,
      Int.floor_eq_iff]
    norm_num
  | 4 => by
    have g : growIter 1000 4 = 10125 / 2 := by norm_num [growIter, growMs]
    rw [g, delayMsOf_eq_floor, show claimedBackoffDelay 4 = 5062 by decide,
      Int.floor_eq_iff]
    norm_num
  | 5 => by
    have g : growIter 1000 5 = 30375 / 4 := by norm_num [growIter, growMs]
    rw [g, delayMsOf_eq_floor, show claimedBackoffDelay 5 = 7593 by decide,
      Int.floor_eq_iff]
    norm_num
  | (k + 6) => by
    have h6 : claimedBackoffDelay (k + 6) = 10000 := by
      unfold claimedBackoffDelay
      apply List.getD_eq_default
      simp
    rw [growIter_six, h6, delayMsOf_eq_floor, Int.floor_eq_iff]
    norm_num

/-- C3: for every run of consecutive connection failures with no intervening
successful open, the delays handed to the reconnect timer are
1000, 1500, 2250, 3375, 5062, 7593, 10000 milliseconds and 10000 for every
further attempt (the stored interval grows by 1.5 and is capped at 10000;
the host timer truncates it to whole milliseconds), and after any successful
open the next failure schedules 1000 again. -/
theorem c3_theorem :
    (∀ n : ℕ,
      schedulesOf (wsRun openedClient (failCycles n)).2 =
        (List.range n).map claimedBackoffDelay) ∧
    (∀ c : WsClient, c.active = true →
      schedulesOf (wsRun c [WsEv.open_, WsEv.close]).2 = [1000]) := by
  constructor
  · intro n
    rw [(wsRun_failCycles n openedClient rfl rfl).2.2.2]
    apply List.map_congr_left
    intro k _
    show delayMsOf (growIter 1000 k) = claimedBackoffDelay k
    exact delayMsOf_growIter k
  · intro c ha
    obtain ⟨a, r, tp, sk⟩ := c
    simp only at ha
    subst ha
    show schedulesOf
        (WsOut.statusOut ConnStatus.connected ::
          WsOut.statusOut ConnStatus.disconnected ::
          WsOut.scheduleOut (delayMsOf 1000) :: []) = [1000]
    rw [show delayMsOf (1000 : ℚ) = 1000 by
      rw [delayMsOf_eq_floor, Int.floor_eq_iff]
      norm_num]
    rfl

/-- Witness for C3: eight consecutive failure cycles starting from a freshly
opened connection schedule exactly the claimed delays, and an open followed
by a failure schedules 1000. -/
theorem c3_witness :
    schedulesOf (wsRun openedClient (failCycles 8)).2 =
      [1000, 1500, 2250, 3375, 5062, 7593, 10000, 10000] ∧
    schedulesOf (wsRun openedClient [WsEv.open_, WsEv.close]).2 = [1000] := by
  constructor
  · rw [c3_theorem.1 8]
    decide
  · exact c3_theorem.2 openedClient rfl

/-- Once inactive with no pending reconnect timer, the client stays inactive
under every post-teardown event, never schedules a reconnect and never
reports connecting. -/
lemma wsRun_inactive (evs : List WsEv) :
    ∀ c : WsClient, c.active = false → c.timerPending = false →
      (∀ e ∈ evs, postTeardownEv e = true) →
      (wsRun c evs).1.active = false ∧ (wsRun c evs).1.timerPending = false ∧
      schedulesOf (wsRun c evs).2 = [] ∧
      WsOut.statusOut ConnStatus.connecting ∉ (wsRun c evs).2 := by
  induction evs with
  | nil =>
    intro c ha htp _
    exact ⟨ha, htp, rfl, by simp [wsRun]⟩
  | cons e rest ih =>
    intro c ha htp hall
    have hrest : ∀ e2 ∈ rest, postTeardownEv e2 = true :=
      fun e2 he2 => hall e2 (List.mem_cons_of_mem _ he2)
    obtain ⟨a, r, tp, sk⟩ := c
    simp only at ha htp
    subst ha; subst htp
    cases e with
    | open_ =>
      have hx := hall _ (List.mem_cons_self _ _)
      simp [postTeardownEv] at hx
    | message p =>
      cases p with
      | none =>
        have h := ih ⟨false, r, false, sk⟩ rfl rfl hrest
        simpa [wsRun, wsStep, schedulesOf] using h
      | some d =>
        have h := ih ⟨false, r, false, sk⟩ rfl rfl hrest
        simpa [wsRun, wsStep, schedulesOf] using h
    | error =>
      have h := ih ⟨false, r, false, sk⟩ rfl rfl hrest
      simpa [wsRun, wsStep, schedulesOf] using h
    | close =>
      have h := ih ⟨false, r, false, some SockSt.closed⟩ rfl rfl hrest
      simpa [wsRun, wsStep, schedulesOf] using h
    | timerFire =>
      have h := ih ⟨false, r, false, sk⟩ rfl rfl hrest
      simpa [wsRun, wsStep, schedulesOf] using h
    | teardown =>
      have h := ih (wsStep ⟨false, r, false, sk⟩ WsEv.teardown).1 rfl rfl hrest
      simpa [wsRun, wsStep, schedulesOf] using h

/-- C9: invoking the teardown closure emits nothing, marks the client
inactive, cancels any pending reconnect timer and closes the socket if it is
open or still connecting; afterwards, under every sequence of subsequent
error, close, late-message, stale-timer or repeated-teardown events, the
client stays inactive, never schedules a reconnect and never attempts to
connect. -/
theorem c9_theorem (c : WsClient) (evs : List WsEv)
    (h : ∀ e ∈ evs, postTeardownEv e = true) :
    (wsStep c WsEv.teardown).2 = [] ∧
    (wsStep c WsEv.teardown).1.active = false ∧
    (wsStep c WsEv.teardown).1.timerPending = false ∧
    ((c.sock = some SockSt.open_ ∨ c.sock = some SockSt.connecting) →
      (wsStep c WsEv.teardown).1.sock = some SockSt.closed) ∧
    (wsRun (wsStep c WsEv.teardown).1 evs).1.active = false ∧
    schedulesOf (wsRun (wsStep c WsEv.teardown).1 evs).2 = [] ∧
    WsOut.statusOut ConnStatus.connecting ∉ (wsRun (wsStep c WsEv.teardown).1 evs).2 := by
  have hrun := wsRun_inactive evs (wsStep c WsEv.teardown).1 rfl rfl h
  refine ⟨rfl, rfl, rfl, ?_, hrun.1, hrun.2.2.1, hrun.2.2.2⟩
  intro hs
  show (if c.sock = some SockSt.open_ ∨ c.sock = some SockSt.connecting then
      some SockSt.closed else c.sock) = some SockSt.closed
  rw [if_pos hs]

/-- Witness for C9: tearing down the opened client and then delivering a
close, a stale timer expiry and an error produces no reconnect activity. -/
theorem c9_witness :
    (wsRun (wsStep openedClient WsEv.teardown).1
        [WsEv.close, WsEv.timerFire, WsEv.error]).1.active = false ∧
    schedulesOf
        (wsRun (wsStep openedClient WsEv.teardown).1
          [WsEv.close, WsEv.timerFire, WsEv.error]).2 = [] ∧
    WsOut.statusOut ConnStatus.connecting ∉
      (wsRun (wsStep openedClient WsEv.teardown).1
        [WsEv.close, WsEv.timerFire, WsEv.error]).2 := by
  have h := c9_theorem openedClient [WsEv.close, WsEv.timerFire, WsEv.error] (by decide)
  exact ⟨h.2.2.2.2.1, h.2.2.2.2.2.1, h.2.2.2.2.2.2⟩

end Arena
